import Mathlib

/-!
Shallow embedding of `src/include/Vector.h` (template class `Vector<E>`),
a dynamically resizable contiguous array with doubling growth and
quarter-occupancy halving shrink.

Modelling conventions:
* `n` (element count) and `N` (capacity) are C++ `int` fields; every state
  reachable through the public interface keeps both non-negative, so they are
  embedded as `Nat`.  Index arguments stay `Int`, because the bounds check
  `valid` compares a possibly negative index.
* `elems` is the live prefix `pv[0..n)` of the heap buffer.  Slots in
  `[n, N)` exist but hold unspecified values; no public operation reads them,
  so they are not tracked.
* A C++ `throw std::out_of_range(msg)` is embedded as `Except.error (.thrown msg)`
  carrying the exact message string of the source.  A buffer write outside the
  `N` allocated slots (undefined behavior in C++) is embedded as
  `Except.error .ub`.  All throws in the source occur before any mutation, so an
  error result means the object is unchanged.
-/

namespace CppLib

/-- Error outcomes of a member call: `thrown msg` models
`throw std::out_of_range(msg)`; `ub` models a buffer access outside the
allocation (undefined behavior). -/
inductive VErr where
  | thrown (msg : String)
  | ub
deriving DecidableEq

/-- State of a `Vector<E>` object: size field `n`, capacity field `N`, and the
live prefix `pv[0..n)` of the owned buffer. -/
structure Vector (E : Type) where
  n : Nat
  N : Nat
  elems : List E
deriving DecidableEq

/-- Source constant `DEFAULT_CAPACITY = 10`. -/
def DEFAULT_CAPACITY : Nat := 10

variable {E : Type}

/-- Constructor `Vector(int count)`: `n = 0; N = count; pv = new E[N]()`.
The fresh buffer holds no live elements. -/
def Vector.new (count : Nat) : Vector E := ⟨0, count, []⟩

/-- Member `size()`: returns `n`. -/
def Vector.size (v : Vector E) : Nat := v.n

/-- Member `capacity()`: returns `N`. -/
def Vector.capacity (v : Vector E) : Nat := v.N

/-- Member `empty()`: returns `n == 0`. -/
def Vector.empty (v : Vector E) : Bool := v.n == 0

/-- Private member `valid(int i)`: returns `i >= 0 && i < n`. -/
def Vector.valid (v : Vector E) (i : Int) : Bool :=
  decide (0 ≤ i) && decide (i < (v.n : Int))

/-- Private member `reserve(int count)`: builds `Vector tmp(count)`, moves the
`n` live elements into it, sets `tmp.n = n` and swaps.  Net effect: same size
and live elements, capacity `count`.  (The source `assert(count >= size())`
holds at every call site below.) -/
def Vector.reserve (v : Vector E) (count : Nat) : Vector E :=
  ⟨v.n, count, v.elems⟩

/-- Growth step shared by `insert` and `insert_back`:
the source line `if (n == N) reserve(N * 2);`. -/
def Vector.growIfFull (v : Vector E) : Vector E :=
  if v.n == v.N then v.reserve (v.N * 2) else v

/-- Shrink step shared by `remove` and `remove_back`:
the source line `if (n > 0 && n == N / 4) reserve(N / 2);`. -/
def Vector.shrinkCheck (v : Vector E) : Vector E :=
  if 0 < v.n ∧ v.n = v.N / 4 then v.reserve (v.N / 2) else v

/-- Member `insert_back(E elem)`: grow if full, then `(*this)[n++] = elem`.
The write lands in slot `n`, which exists only when `n < N` after the growth
step; otherwise it is out of bounds (`ub`). -/
def Vector.insert_back (v : Vector E) (elem : E) : Except VErr (Vector E) :=
  if v.growIfFull.n < v.growIfFull.N then
    Except.ok ⟨v.growIfFull.n + 1, v.growIfFull.N, v.growIfFull.elems ++ [elem]⟩
  else Except.error VErr.ub

/-- Member `insert(i, elem)` (the body of `Vector<E>::insert`, whose parameter
is used as an index `i`): delegate to `insert_back` when `i == n`; throw when
`!valid(i)`; otherwise grow if full, shift `pv[i..n)` one slot toward the tail
with `std::move_backward`, write `elem` at slot `i`, and increment `n`.  The
shift writes slot `n`, which requires `n < N` after the growth step. -/
def Vector.insert (v : Vector E) (i : Int) (elem : E) : Except VErr (Vector E) :=
  if i == (v.n : Int) then v.insert_back elem
  else if !(v.valid i) then Except.error (VErr.thrown "Vector::insert() i out of range.")
  else if v.growIfFull.n < v.growIfFull.N then
    Except.ok ⟨v.growIfFull.n + 1, v.growIfFull.N,
      v.growIfFull.elems.take i.toNat ++ elem :: v.growIfFull.elems.drop i.toNat⟩
  else Except.error VErr.ub

/-- Member `remove_back()`: throw when empty, else run the shrink check.
Note the source never decrements `n`: the size and live prefix are unchanged,
and the shrink test reads the pre-call `n`. -/
def Vector.remove_back (v : Vector E) : Except VErr (Vector E) :=
  if v.empty then Except.error (VErr.thrown "Vector::remove_back")
  else Except.ok v.shrinkCheck

/-- Member `remove(i)` (the body of `Vector<E>::remove`, whose parameter is
used as an index `i`): delegate to `remove_back` when `i == n - 1`; throw when
`!valid(i)`; otherwise shift `pv[i+1..n)` one slot toward the head with
`std::move`, decrement `n`, and run the shrink check. -/
def Vector.remove (v : Vector E) (i : Int) : Except VErr (Vector E) :=
  if i == (v.n : Int) - 1 then v.remove_back
  else if !(v.valid i) then Except.error (VErr.thrown "Vector::remove() i out of range.")
  else
    Except.ok (Vector.shrinkCheck ⟨v.n - 1, v.N, v.elems.take i.toNat ++ v.elems.drop (i.toNat + 1)⟩)

/-- Member `at(int i)`: throw when `!valid(i)`, else return the element in slot
`i` (the slot exists whenever the container invariant holds, hence `some`). -/
def Vector.at' (v : Vector E) (i : Int) : Except VErr (Option E) :=
  if !(v.valid i) then Except.error (VErr.thrown "Vector::at")
  else Except.ok v.elems[i.toNat]?

/-- Member `front()`: throw when empty, else return `*begin()`, the element in
slot `0`. -/
def Vector.front (v : Vector E) : Except VErr (Option E) :=
  if v.empty then Except.error (VErr.thrown "Vector::front")
  else Except.ok v.elems[0]?

/-- Member `back()`: throw when empty, else return `*prev(end())`, the element
in slot `n - 1`. -/
def Vector.back (v : Vector E) : Except VErr (Option E) :=
  if v.empty then Except.error (VErr.thrown "Vector::back")
  else Except.ok v.elems[v.n - 1]?

/-- Member `swap(Vector& that)`: exchanges `n`, `N` and `pv` of the two
objects. -/
def Vector.swap (a b : Vector E) : Vector E × Vector E := (b, a)

/-- Member `clear()`: sets `n = 0`; capacity and buffer are kept, the old
values merely stop being live. -/
def Vector.clear (v : Vector E) : Vector E := ⟨0, v.N, []⟩

/-- Copy assignment `operator=(Vector that)`: copy-and-swap, the object becomes
a deep copy of `that`. -/
def Vector.assign (_v that : Vector E) : Vector E := that

/-- Member `operator+=(const Vector& that)` for distinct objects:
`reserve(N + that.N)`, then `std::copy` the `that.n` live elements of `that`
to `end()` and add `that.n` to `n`.  The copy writes slots
`[n, n + that.n)`, inside the allocation only when `n + that.n ≤ N + that.N`
(always true for well-formed arguments); otherwise it is out of bounds. -/
def Vector.plusAssign (v that : Vector E) : Except VErr (Vector E) :=
  if (v.reserve (v.N + that.N)).n + that.n ≤ (v.reserve (v.N + that.N)).N then
    Except.ok ⟨(v.reserve (v.N + that.N)).n + that.n, (v.reserve (v.N + that.N)).N,
      (v.reserve (v.N + that.N)).elems ++ that.elems⟩
  else Except.error VErr.ub

/-- Execution of `v += v` (the `that` reference aliases `*this`): after
`reserve(N + N)` reallocates, `that.begin()/that.end()` denote the new buffer,
whose live prefix `reserve` preserved, and `that.n` is still the old `n`; the
copy reads `[0, n)` and writes `[n, 2n)` of the same buffer (disjoint ranges),
then `n += n`. -/
def Vector.plusAssignSelf (v : Vector E) : Except VErr (Vector E) :=
  if (v.reserve (v.N + v.N)).n + (v.reserve (v.N + v.N)).n ≤ (v.reserve (v.N + v.N)).N then
    Except.ok ⟨(v.reserve (v.N + v.N)).n + (v.reserve (v.N + v.N)).n, (v.reserve (v.N + v.N)).N,
      (v.reserve (v.N + v.N)).elems ++ (v.reserve (v.N + v.N)).elems⟩
  else Except.error VErr.ub

/-- Free function `operator+(Vector lhs, const Vector& rhs)`: `lhs` is passed
by value (a copy), then `lhs += rhs` and the copy is returned; neither argument
object is modified. -/
def Vector.addOp (lhs rhs : Vector E) : Except VErr (Vector E) :=
  Vector.plusAssign lhs rhs

/-- Raw representation used for the move-construction and destructor claims:
like `Vector` but with the buffer pointer made explicit, `none` modelling
`pv == nullptr`. -/
structure RawVector (E : Type) where
  n : Nat
  N : Nat
  pv : Option (List E)
deriving DecidableEq

/-- Move constructor `Vector(Vector&& that)`: copies `n`, `N`, `pv` into the
new object and sets `that.pv = nullptr`; `that.n` and `that.N` are left
untouched.  Returns (new object, moved-from object). -/
def RawVector.moveCtor (that : RawVector E) : RawVector E × RawVector E :=
  (⟨that.n, that.N, that.pv⟩, ⟨that.n, that.N, none⟩)

/-- Destructor `~Vector() { delete[] pv; }`: acts on a buffer exactly when
`pv` is non-null (`delete[] nullptr` is a no-op). -/
def RawVector.destructorFreesBuffer (v : RawVector E) : Bool := v.pv.isSome

/-- Public operations usable in an operation sequence.  The payload vectors of
`swapWith`, `assignFrom` and `concatWith` are the states of the other objects
involved. -/
inductive Op (E : Type) where
  | insertBack (e : E)
  | insertAt (i : Int) (e : E)
  | removeAt (i : Int)
  | removeBack
  | clearOp
  | swapWith (w : Vector E)
  | assignFrom (w : Vector E)
  | concatWith (w : Vector E)

/-- One public operation applied to the tracked object, with its error
outcome. -/
def applyOpE (v : Vector E) : Op E → Except VErr (Vector E)
  | .insertBack e => v.insert_back e
  | .insertAt i e => v.insert i e
  | .removeAt i => v.remove i
  | .removeBack => v.remove_back
  | .clearOp => Except.ok v.clear
  | .swapWith w => Except.ok (v.swap w).1
  | .assignFrom w => Except.ok (v.assign w)
  | .concatWith w => v.plusAssign w

/-- Recover from an error by keeping the pre-call state (every throw in the
source happens before any mutation). -/
def exceptD (v : Vector E) : Except VErr (Vector E) → Vector E
  | .ok w => w
  | .error _ => v

/-- Apply one operation; a raised condition leaves the object unchanged. -/
def applyOp (v : Vector E) (op : Op E) : Vector E := exceptD v (applyOpE v op)

/-- Run a sequence of operations, errors leaving the state unchanged. -/
def runOps (v : Vector E) (ops : List (Op E)) : Vector E := ops.foldl applyOp v

/-- Run a sequence of operations, stopping at the first error. -/
def runE (v : Vector E) (ops : List (Op E)) : Except VErr (Vector E) :=
  ops.foldlM applyOpE v

/-- Container invariant: the live prefix has exactly `n` elements and
`n ≤ N`. -/
def Inv (v : Vector E) : Prop := v.elems.length = v.n ∧ v.n ≤ v.N

/-- Well-formedness of an operation: any payload vector satisfies the
container invariant. -/
def OpWF : Op E → Prop
  | .swapWith w => Inv w
  | .assignFrom w => Inv w
  | .concatWith w => Inv w
  | _ => True

/-- Spec error taxonomy, kind 1: the out-of-range condition is the
`std::out_of_range` thrown by the checked positional operations `insert`,
`remove` and `at`, identified by their message strings. -/
def VErr.isOutOfRangeCond : VErr → Bool
  | .thrown m =>
      m == "Vector::insert() i out of range." || m == "Vector::remove() i out of range." ||
        m == "Vector::at"
  | .ub => false

/-- Spec error taxonomy, kind 2: the empty-container condition is the
`std::out_of_range` thrown by `front`, `back` and `remove_back`, identified by
their message strings. -/
def VErr.isEmptyCond : VErr → Bool
  | .thrown m => m == "Vector::front" || m == "Vector::back" || m == "Vector::remove_back"
  | .ub => false

/-- Result raises the out-of-range condition. -/
def raisesOOR {α : Type} : Except VErr α → Bool
  | .error e => e.isOutOfRangeCond
  | .ok _ => false

/-- Result raises the empty-container condition. -/
def raisesEmpty {α : Type} : Except VErr α → Bool
  | .error e => e.isEmptyCond
  | .ok _ => false

/-- Result is any error (a raised condition or undefined behavior). -/
def isErr {α : Type} : Except VErr α → Bool
  | .error _ => true
  | .ok _ => false

/-- Scenario of the spec: eleven `insert_back` calls with the values 0..10. -/
def scenarioInserts : List (Op Nat) :=
  [Op.insertBack 0, Op.insertBack 1, Op.insertBack 2, Op.insertBack 3, Op.insertBack 4,
   Op.insertBack 5, Op.insertBack 6, Op.insertBack 7, Op.insertBack 8, Op.insertBack 9,
   Op.insertBack 10]

/-- State of the scenario vector after the eleven insertions. -/
def scenarioMid : Vector Nat := ⟨11, 20, [0, 1, 2, 3, 4, 5, 6, 7, 8, 9, 10]⟩

/-- The growth step never changes the size field. -/
theorem growIfFull_n (v : Vector E) : v.growIfFull.n = v.n := by
  unfold Vector.growIfFull Vector.reserve
  split <;> rfl

/-- The growth step never changes the live prefix. -/
theorem growIfFull_elems (v : Vector E) : v.growIfFull.elems = v.elems := by
  unfold Vector.growIfFull Vector.reserve
  split <;> rfl

/-- The shrink step never changes the size field. -/
theorem shrinkCheck_n (v : Vector E) : v.shrinkCheck.n = v.n := by
  unfold Vector.shrinkCheck Vector.reserve
  split <;> rfl

/-- The shrink step never changes the live prefix. -/
theorem shrinkCheck_elems (v : Vector E) : v.shrinkCheck.elems = v.elems := by
  unfold Vector.shrinkCheck Vector.reserve
  split <;> rfl

/-- The shrink step preserves the container invariant: it only halves the
capacity when the size is exactly a quarter of it. -/
theorem Inv_shrinkCheck {v : Vector E} (h : Inv v) : Inv v.shrinkCheck := by
  obtain ⟨h1, h2⟩ := h
  unfold Vector.shrinkCheck Vector.reserve
  split
  · rename_i hc
    refine ⟨h1, ?_⟩
    show v.n ≤ v.N / 2
    omega
  · exact ⟨h1, h2⟩

/-- Successful `insert_back` preserves the container invariant. -/
theorem Inv_insert_back {v w : Vector E} {e : E} (h : Inv v)
    (hw : v.insert_back e = Except.ok w) : Inv w := by
  unfold Vector.insert_back at hw
  split at hw
  · rename_i hlt
    injection hw with hw
    subst hw
    refine ⟨?_, ?_⟩
    · show (v.growIfFull.elems ++ [e]).length = v.growIfFull.n + 1
      simp [growIfFull_elems, growIfFull_n, h.1]
    · show v.growIfFull.n + 1 ≤ v.growIfFull.N
      omega
  · cases hw

/-- Successful `insert` preserves the container invariant. -/
theorem Inv_insert {v w : Vector E} {i : Int} {e : E} (h : Inv v)
    (hw : v.insert i e = Except.ok w) : Inv w := by
  unfold Vector.insert at hw
  split at hw
  · exact Inv_insert_back h hw
  · split at hw
    · cases hw
    · rename_i hval
      split at hw
      · rename_i hlt
        injection hw with hw
        subst hw
        have hv : v.valid i = true := by
          revert hval
          cases v.valid i <;> simp
        have hi : i.toNat < v.n := by
          unfold Vector.valid at hv
          simp at hv
          omega
        have hg := growIfFull_n v
        refine ⟨?_, ?_⟩
        · show (v.growIfFull.elems.take i.toNat ++ e :: v.growIfFull.elems.drop i.toNat).length =
            v.growIfFull.n + 1
          simp [growIfFull_elems, growIfFull_n, h.1]
          omega
        · show v.growIfFull.n + 1 ≤ v.growIfFull.N
          omega
      · cases hw

/-- `remove_back` throws on an empty vector and otherwise only runs the shrink
step, so it preserves the container invariant. -/
theorem Inv_remove_back {v w : Vector E} (h : Inv v)
    (hw : v.remove_back = Except.ok w) : Inv w := by
  unfold Vector.remove_back at hw
  split at hw
  · cases hw
  · injection hw with hw
    subst hw
    exact Inv_shrinkCheck h

/-- Successful `remove` preserves the container invariant. -/
theorem Inv_remove {v w : Vector E} {i : Int} (h : Inv v)
    (hw : v.remove i = Except.ok w) : Inv w := by
  unfold Vector.remove at hw
  split at hw
  · exact Inv_remove_back h hw
  · split at hw
    · cases hw
    · rename_i hval
      injection hw with hw
      subst hw
      have hv : v.valid i = true := by
        revert hval
        cases v.valid i <;> simp
      have hi : i.toNat < v.n := by
        unfold Vector.valid at hv
        simp at hv
        omega
      refine Inv_shrinkCheck ⟨?_, ?_⟩
      · show (v.elems.take i.toNat ++ v.elems.drop (i.toNat + 1)).length = v.n - 1
        simp [h.1]
        omega
      · show v.n - 1 ≤ v.N
        have h2 := h.2
        omega

/-- Successful `plusAssign` preserves the container invariant, provided the
appended vector satisfies it as well. -/
theorem Inv_plusAssign {v t w : Vector E} (h : Inv v) (ht : Inv t)
    (hw : v.plusAssign t = Except.ok w) : Inv w := by
  unfold Vector.plusAssign Vector.reserve at hw
  split at hw
  · rename_i hle
    injection hw with hw
    subst hw
    refine ⟨?_, ?_⟩
    · show (v.elems ++ t.elems).length = v.n + t.n
      simp [h.1, ht.1]
    · show v.n + t.n ≤ v.N + t.N
      simpa using hle
  · cases hw

/-- Any single public operation with well-formed payload preserves the
container invariant (errors leave the state unchanged). -/
theorem Inv_applyOp {v : Vector E} {op : Op E} (h : Inv v) (hop : OpWF op) :
    Inv (applyOp v op) := by
  cases op with
  | insertBack e =>
      unfold applyOp applyOpE exceptD
      split
      · rename_i w hw
        exact Inv_insert_back h hw
      · exact h
  | insertAt i e =>
      unfold applyOp applyOpE exceptD
      split
      · rename_i w hw
        exact Inv_insert h hw
      · exact h
  | removeAt i =>
      unfold applyOp applyOpE exceptD
      split
      · rename_i w hw
        exact Inv_remove h hw
      · exact h
  | removeBack =>
      unfold applyOp applyOpE exceptD
      split
      · rename_i w hw
        exact Inv_remove_back h hw
      · exact h
  | clearOp => exact ⟨rfl, Nat.zero_le _⟩
  | swapWith w => exact hop
  | assignFrom w => exact hop
  | concatWith w =>
      unfold applyOp applyOpE exceptD
      split
      · rename_i u hu
        exact Inv_plusAssign h hop hu
      · exact h

/-- Sequences of well-formed public operations preserve the container
invariant. -/
theorem Inv_runOps {v : Vector E} {ops : List (Op E)} (h : Inv v)
    (hops : ∀ op ∈ ops, OpWF op) : Inv (runOps v ops) := by
  induction ops generalizing v with
  | nil => exact h
  | cons op rest ih =>
      have h1 : OpWF op := hops op (List.mem_cons_self op rest)
      have h2 : ∀ o ∈ rest, OpWF o := fun o ho => hops o (List.mem_cons_of_mem op ho)
      exact ih (Inv_applyOp h h1) h2

/-- C1: evaluation of the spec scenario on the code.  Starting from the
default capacity 10, eleven `insert_back` calls with values 0..10 do give
`size() = 11`, `capacity() = 20` and `at(10) = 10`; but the eight subsequent
`remove_back` calls return with the state completely unchanged (the source
never decrements `n`), so the final size is 11, not the 3 the claim states. -/
theorem c1_scenario_eval :
    runE (Vector.new DEFAULT_CAPACITY) scenarioInserts = Except.ok scenarioMid ∧
    scenarioMid.size = 11 ∧ scenarioMid.capacity = 20 ∧
    scenarioMid.at' 10 = Except.ok (some 10) ∧
    runE scenarioMid (List.replicate 8 Op.removeBack) = Except.ok scenarioMid ∧
    scenarioMid.size ≠ 3 :=
  ⟨rfl, rfl, rfl, rfl, rfl, by decide⟩

/-- C2: evaluation of `remove_back` on the code.  On the empty default vector
it does fail with the empty-container condition, but on a one-element vector
(reached by one `insert_back`) it returns with the length still 1: the source
never decrements `n`, contradicting the claim that the length drops to 0. -/
theorem c2_remove_back_eval :
    runE (Vector.new DEFAULT_CAPACITY) [Op.insertBack 5] =
      Except.ok (⟨1, DEFAULT_CAPACITY, [5]⟩ : Vector Nat) ∧
    (⟨1, DEFAULT_CAPACITY, [5]⟩ : Vector Nat).remove_back =
      Except.ok ⟨1, DEFAULT_CAPACITY, [5]⟩ ∧
    (⟨1, DEFAULT_CAPACITY, [5]⟩ : Vector Nat).size = 1 ∧
    (Vector.new DEFAULT_CAPACITY : Vector Nat).remove_back =
      Except.error (VErr.thrown "Vector::remove_back") :=
  ⟨rfl, rfl, rfl, rfl⟩

/-- C3: evaluation of the first `insert_back` on a vector created with
capacity 0.  The growth step `reserve(N * 2)` is `reserve(0)`, so the capacity
stays 0 and the subsequent write `(*this)[n++]` lands outside the zero-slot
allocation (undefined behavior), contradicting the claim that capacity becomes
positive and the element is written into an allocated slot. -/
theorem c3_zero_capacity_eval :
    (Vector.new 0 : Vector Nat).insert_back 42 = Except.error VErr.ub ∧
    (Vector.new 0 : Vector Nat).growIfFull.capacity = 0 :=
  ⟨rfl, rfl⟩

/-- C10: evaluation of `remove` at the last index on the code.  The state
with `n = 5`, `N = 20` is reachable via `operator+=`; removing index 4
(`== n - 1`) delegates to `remove_back`, whose shrink test reads the
pre-removal length 5 `== 20 / 4` and reallocates to capacity 10, although the
post-removal length 4 differs from `capacity / 4`, contradicting the claim
that the capacity stays unchanged in that case. -/
theorem c10_remove_last_shrink_eval :
    (⟨2, 10, [0, 1]⟩ : Vector Nat).plusAssign ⟨3, 10, [2, 3, 4]⟩ =
      Except.ok ⟨5, 20, [0, 1, 2, 3, 4]⟩ ∧
    (⟨5, 20, [0, 1, 2, 3, 4]⟩ : Vector Nat).remove 4 =
      Except.ok ⟨5, 10, [0, 1, 2, 3, 4]⟩ ∧
    (5 : Nat) - 1 ≠ 20 / 4 :=
  ⟨rfl, rfl, by decide⟩

/-- C4, counterexample: from the default-capacity vector, three `insert_back`
calls followed by `remove(0)` leave the capacity at 5, strictly below the
default minimum 10, refuting the clause that the capacity never drops below
the configured minimum. -/
theorem c4_capacity_below_minimum :
    (runOps (Vector.new DEFAULT_CAPACITY)
      [Op.insertBack 0, Op.insertBack 1, Op.insertBack 2, Op.removeAt 0]).capacity = 5 ∧
    5 < DEFAULT_CAPACITY := by
  constructor
  · rfl
  · decide

/-- C4 (amended): after any sequence of public operations (insertions,
removals, clear, swap, assignment, concatenation — payload vectors
well-formed) starting from the default-capacity vector, `length ≤ capacity`
holds; the minimum-capacity clause of the original claim is dropped. -/
theorem c4_length_le_capacity (ops : List (Op E)) (hops : ∀ op ∈ ops, OpWF op) :
    (runOps (Vector.new DEFAULT_CAPACITY) ops).size ≤
      (runOps (Vector.new DEFAULT_CAPACITY) ops).capacity := by
  have h : Inv (Vector.new DEFAULT_CAPACITY : Vector E) := ⟨rfl, by simp [Vector.new]⟩
  exact (Inv_runOps h hops).2

/-- C4, witness: the amended theorem applied to a concrete operation
sequence. -/
theorem c4_length_le_capacity_witness :
    (runOps (Vector.new DEFAULT_CAPACITY) [Op.insertBack 3, Op.removeBack]).size ≤
      (runOps (Vector.new DEFAULT_CAPACITY) [Op.insertBack 3, Op.removeBack]).capacity :=
  c4_length_le_capacity [Op.insertBack 3, Op.removeBack] (by
    intro op hop
    simp at hop
    rcases hop with rfl | rfl <;> trivial)

/-- C5, counterexample: moving from a one-element vector leaves the source
with size 1, not 0 — the move constructor copies `n` and `N` into the new
object but never resets them in the source. -/
theorem c5_moved_from_not_empty :
    ((⟨1, DEFAULT_CAPACITY, some [5]⟩ : RawVector Nat).moveCtor).2.n ≠ 0 := by
  decide

/-- C5 (amended): move construction transfers the buffer to the new object
(same `n`, `N` and `pv`); the source's pointer becomes null, so destroying the
moved-from object performs no operation on the transferred buffer (no
double-free), but the source retains its previous size and capacity fields
instead of becoming empty. -/
theorem c5_move_transfer (x : RawVector E) :
    x.moveCtor.1 = ⟨x.n, x.N, x.pv⟩ ∧
    x.moveCtor.2.pv = none ∧
    x.moveCtor.2.destructorFreesBuffer = false ∧
    x.moveCtor.2.n = x.n ∧ x.moveCtor.2.N = x.N :=
  ⟨rfl, rfl, rfl, rfl, rfl⟩

/-- C5, witness: the amended theorem applied to a concrete one-element
vector. -/
theorem c5_move_transfer_witness :
    (⟨1, DEFAULT_CAPACITY, some [5]⟩ : RawVector Nat).moveCtor.1 = ⟨1, DEFAULT_CAPACITY, some [5]⟩ ∧
    (⟨1, DEFAULT_CAPACITY, some [5]⟩ : RawVector Nat).moveCtor.2.pv = none ∧
    (⟨1, DEFAULT_CAPACITY, some [5]⟩ : RawVector Nat).moveCtor.2.destructorFreesBuffer = false ∧
    (⟨1, DEFAULT_CAPACITY, some [5]⟩ : RawVector Nat).moveCtor.2.n = 1 ∧
    (⟨1, DEFAULT_CAPACITY, some [5]⟩ : RawVector Nat).moveCtor.2.N = DEFAULT_CAPACITY :=
  c5_move_transfer ⟨1, DEFAULT_CAPACITY, some [5]⟩

/-- C8: for well-formed vectors `a` and `b`, the pure concatenation
`operator+` succeeds (the copied elements land inside the fresh allocation)
and produces a vector of length `len(a) + len(b)` whose element sequence is
`a`'s elements followed by `b`'s.  Both arguments are taken by value / const
reference, so the argument objects are untouched (the embedding is pure). -/
theorem c8_concat_spec (a b : Vector E) (ha : Inv a) (hb : Inv b) :
    ∃ w : Vector E, a.addOp b = Except.ok w ∧
      w.size = a.size + b.size ∧
      w.elems = a.elems ++ b.elems ∧
      w.elems.length = a.elems.length + b.elems.length := by
  have hcond : (a.reserve (a.N + b.N)).n + b.n ≤ (a.reserve (a.N + b.N)).N := by
    show a.n + b.n ≤ a.N + b.N
    have h1 := ha.2
    have h2 := hb.2
    omega
  refine ⟨⟨a.n + b.n, a.N + b.N, a.elems ++ b.elems⟩, ?_, rfl, rfl, by simp⟩
  unfold Vector.addOp Vector.plusAssign
  rw [if_pos hcond]
  rfl

/-- C8, witness: the theorem applied to two concrete vectors. -/
theorem c8_concat_spec_witness :
    Inv (⟨1, 10, [7]⟩ : Vector Nat) ∧ Inv (⟨2, 10, [8, 9]⟩ : Vector Nat) ∧
    (∃ w : Vector Nat, (⟨1, 10, [7]⟩ : Vector Nat).addOp ⟨2, 10, [8, 9]⟩ = Except.ok w ∧
      w.size = (⟨1, 10, [7]⟩ : Vector Nat).size + (⟨2, 10, [8, 9]⟩ : Vector Nat).size ∧
      w.elems = (⟨1, 10, [7]⟩ : Vector Nat).elems ++ (⟨2, 10, [8, 9]⟩ : Vector Nat).elems ∧
      w.elems.length = (⟨1, 10, [7]⟩ : Vector Nat).elems.length +
        (⟨2, 10, [8, 9]⟩ : Vector Nat).elems.length) :=
  ⟨⟨rfl, by decide⟩, ⟨rfl, by decide⟩,
    c8_concat_spec ⟨1, 10, [7]⟩ ⟨2, 10, [8, 9]⟩ ⟨rfl, by decide⟩ ⟨rfl, by decide⟩⟩

/-- C9: self-append is safe.  For a well-formed vector, `v += v` first
reallocates via `reserve(N + N)` — after which the aliased `that` denotes the
new buffer with the same live prefix — and then copies the live prefix
`[0, n)` into the disjoint range `[n, 2n)`, doubling the length and yielding
the original sequence followed by a copy of itself; the aliased execution
agrees with `plusAssign` applied to two copies of `v`. -/
theorem c9_self_append (v : Vector E) (h : Inv v) :
    v.plusAssignSelf = Except.ok (⟨v.n + v.n, v.N + v.N, v.elems ++ v.elems⟩ : Vector E) ∧
    v.plusAssignSelf = v.plusAssign v := by
  have h2 := h.2
  have hcond : (v.reserve (v.N + v.N)).n + (v.reserve (v.N + v.N)).n ≤
      (v.reserve (v.N + v.N)).N := by
    show v.n + v.n ≤ v.N + v.N
    omega
  have hcond' : (v.reserve (v.N + v.N)).n + v.n ≤ (v.reserve (v.N + v.N)).N := by
    show v.n + v.n ≤ v.N + v.N
    omega
  constructor
  · unfold Vector.plusAssignSelf
    rw [if_pos hcond]
    rfl
  · unfold Vector.plusAssignSelf Vector.plusAssign
    rw [if_pos hcond, if_pos hcond']
    rfl

/-- C9, witness: the theorem applied to a concrete two-element vector. -/
theorem c9_self_append_witness :
    Inv (⟨2, 10, [3, 4]⟩ : Vector Nat) ∧
    ((⟨2, 10, [3, 4]⟩ : Vector Nat).plusAssignSelf =
      Except.ok (⟨2 + 2, 10 + 10, [3, 4] ++ [3, 4]⟩ : Vector Nat) ∧
     (⟨2, 10, [3, 4]⟩ : Vector Nat).plusAssignSelf =
      (⟨2, 10, [3, 4]⟩ : Vector Nat).plusAssign ⟨2, 10, [3, 4]⟩) :=
  ⟨⟨rfl, by decide⟩, c9_self_append ⟨2, 10, [3, 4]⟩ ⟨rfl, by decide⟩⟩

/-- With `n ≤ N` and `0 < N`, the growth step establishes room for one more
element: either the vector was full and the capacity doubled, or it was not
full to begin with. -/
theorem growIfFull_lt {v : Vector E} (h2 : v.n ≤ v.N) (hN : 0 < v.N) :
    v.growIfFull.n < v.growIfFull.N := by
  unfold Vector.growIfFull Vector.reserve
  by_cases hc : v.n = v.N
  · rw [if_pos (by simp [hc])]
    show v.n < v.N * 2
    omega
  · rw [if_neg (by simp [hc])]
    omega

/-- On a well-formed vector with positive capacity, `insert_back` succeeds,
appends the element to the live prefix and increments the size. -/
theorem insert_back_ok {v : Vector E} (e : E) (hInv : Inv v) (hN : 0 < v.N) :
    v.insert_back e = Except.ok ⟨v.n + 1, v.growIfFull.N, v.elems ++ [e]⟩ := by
  unfold Vector.insert_back
  rw [if_pos (growIfFull_lt hInv.2 hN), growIfFull_n, growIfFull_elems]

/-- On a well-formed vector, `insert` at a strictly interior index succeeds and
splices the element into the live prefix at that index. -/
theorem insert_interior_ok {v : Vector E} {i : Int} (e : E) (hInv : Inv v)
    (h0 : 0 ≤ i) (hi : i < (v.n : Int)) :
    v.insert i e = Except.ok ⟨v.n + 1, v.growIfFull.N,
      v.elems.take i.toNat ++ e :: v.elems.drop i.toNat⟩ := by
  have h2 := hInv.2
  have hN : 0 < v.N := by omega
  have hval : v.valid i = true := by
    unfold Vector.valid
    simp
    omega
  unfold Vector.insert
  rw [if_neg (by simp; omega), if_neg (by simp [hval]),
    if_pos (growIfFull_lt h2 hN), growIfFull_n, growIfFull_elems]

/-- Splicing an element into a list at slot `k` leaves slots `[0, k)` in
place, puts the element at slot `k`, and moves the old slots `[k, length)` to
`[k + 1, length + 1)`. -/
theorem insertSlot_getElem (l : List E) (e : E) (k : Nat) (hk : k ≤ l.length) :
    (l.take k ++ e :: l.drop k)[k]? = some e ∧
    (∀ j, j < k → (l.take k ++ e :: l.drop k)[j]? = l[j]?) ∧
    (∀ j, k ≤ j → j < l.length → (l.take k ++ e :: l.drop k)[j + 1]? = l[j]?) := by
  have htl : (l.take k).length = k := by
    simp [List.length_take]
    omega
  refine ⟨?_, ?_, ?_⟩
  · rw [List.getElem?_append_right (by omega), htl]
    simp
  · intro j hj
    rw [List.getElem?_append, if_pos (by omega), List.getElem?_take, if_pos hj]
  · intro j hjk hjl
    rw [List.getElem?_append_right (by omega), htl,
      show j + 1 - k = (j - k) + 1 from by omega]
    rw [List.getElem?_cons_succ, List.getElem?_drop,
      show k + (j - k) = j from by omega]

/-- C6, counterexample: on a vector created with capacity 0 (legal per the
spec) and index 0 (which lies in `[0, length]`), `insertAt` does not place the
element: it delegates to `insert_back`, whose growth step `reserve(0 * 2)`
leaves the capacity at 0, so the write is out of bounds. -/
theorem c6_zero_capacity_cex :
    (Vector.new 0 : Vector Nat).insert 0 7 = Except.error VErr.ub := rfl

/-- C6 (amended): for every well-formed vector with positive capacity and
every index in `[0, length]`, `insertAt(index, v)` succeeds; afterwards
`at(index)` returns `v`, the elements originally before `index` are unmoved,
the elements originally at `[index, length)` occupy `[index + 1, length + 1)`
in their original relative order, and at `index == length` the call is
literally a call of `insertBack`.  (The positive-capacity hypothesis is forced
by the zero-capacity growth bug of the counterexample.) -/
theorem c6_insert_at_spec (v : Vector E) (e : E) (i : Int) (hInv : Inv v) (hN : 0 < v.N)
    (h0 : 0 ≤ i) (hi : i ≤ (v.n : Int)) :
    ∃ w : Vector E, v.insert i e = Except.ok w ∧
      w.size = v.size + 1 ∧
      w.elems = v.elems.take i.toNat ++ e :: v.elems.drop i.toNat ∧
      w.at' i = Except.ok (some e) ∧
      (∀ j : Nat, j < i.toNat → w.elems[j]? = v.elems[j]?) ∧
      (∀ j : Nat, i.toNat ≤ j → j < v.n → w.elems[j + 1]? = v.elems[j]?) ∧
      (i = (v.n : Int) → v.insert i e = v.insert_back e) := by
  have hlen := hInv.1
  have h2 := hInv.2
  have hk : i.toNat ≤ v.elems.length := by omega
  obtain ⟨hget, hbelow, habove⟩ := insertSlot_getElem v.elems e i.toNat hk
  by_cases hc : i = (v.n : Int)
  · have heq : v.insert i e = v.insert_back e := by
      unfold Vector.insert
      rw [if_pos (by simp [hc])]
    have helems : v.elems ++ [e] = v.elems.take i.toNat ++ e :: v.elems.drop i.toNat := by
      rw [List.take_of_length_le (by omega), List.drop_of_length_le (by omega)]
    refine ⟨⟨v.n + 1, v.growIfFull.N, v.elems.take i.toNat ++ e :: v.elems.drop i.toNat⟩,
      ?_, rfl, rfl, ?_, hbelow, fun j hj hjl => habove j hj (by omega), fun _ => heq⟩
    · rw [heq, insert_back_ok e hInv hN, helems]
    · unfold Vector.at'
      rw [if_neg (by unfold Vector.valid; simp; omega)]
      show Except.ok (v.elems.take i.toNat ++ e :: v.elems.drop i.toNat)[i.toNat]? =
        Except.ok (some e)
      rw [hget]
  · have hi' : i < (v.n : Int) := by omega
    refine ⟨⟨v.n + 1, v.growIfFull.N, v.elems.take i.toNat ++ e :: v.elems.drop i.toNat⟩,
      insert_interior_ok e hInv h0 hi', rfl, rfl, ?_, hbelow,
      fun j hj hjl => habove j hj (by omega), fun hcc => absurd hcc hc⟩
    unfold Vector.at'
    rw [if_neg (by unfold Vector.valid; simp; omega)]
    show Except.ok (v.elems.take i.toNat ++ e :: v.elems.drop i.toNat)[i.toNat]? =
      Except.ok (some e)
    rw [hget]

/-- C6, witness: the amended theorem applied to the vector `[4, 6]` (size 2,
capacity 10) at index 1 with value 5. -/
theorem c6_insert_at_spec_witness :
    Inv (⟨2, 10, [4, 6]⟩ : Vector Nat) ∧ 0 < (⟨2, 10, [4, 6]⟩ : Vector Nat).N ∧
    (∃ w : Vector Nat, (⟨2, 10, [4, 6]⟩ : Vector Nat).insert 1 5 = Except.ok w ∧
      w.size = (⟨2, 10, [4, 6]⟩ : Vector Nat).size + 1 ∧
      w.elems = List.take (Int.toNat 1) [4, 6] ++ 5 :: List.drop (Int.toNat 1) [4, 6] ∧
      w.at' 1 = Except.ok (some 5) ∧
      (∀ j : Nat, j < Int.toNat 1 → w.elems[j]? = [4, 6][j]?) ∧
      (∀ j : Nat, Int.toNat 1 ≤ j → j < 2 → w.elems[j + 1]? = [4, 6][j]?) ∧
      ((1 : Int) = ((2 : Nat) : Int) →
        (⟨2, 10, [4, 6]⟩ : Vector Nat).insert 1 5 = (⟨2, 10, [4, 6]⟩ : Vector Nat).insert_back 5)) :=
  ⟨⟨rfl, by decide⟩, by decide,
    c6_insert_at_spec ⟨2, 10, [4, 6]⟩ 5 1 ⟨rfl, by decide⟩ (by decide) (by decide) (by decide)⟩

/-- A checked call that errors leaves the object unchanged: the source throws
before performing any mutation, which the embedding mirrors by returning the
pre-call state. -/
theorem applyOp_unchanged_on_error {v : Vector E} {op : Op E}
    (h : isErr (applyOpE v op) = true) : applyOp v op = v := by
  unfold applyOp exceptD
  split
  · rename_i w hw
    rw [hw] at h
    simp [isErr] at h
  · rfl

/-- Taxonomy of `at`: it raises the out-of-range condition exactly when
`valid(i)` fails, and never the empty-container condition. -/
theorem at_taxonomy (v : Vector E) (i : Int) :
    raisesOOR (v.at' i) = !(v.valid i) ∧ raisesEmpty (v.at' i) = false := by
  unfold Vector.at'
  cases hv : v.valid i
  · rw [if_pos (by simp [hv])]
    exact ⟨rfl, rfl⟩
  · rw [if_neg (by simp [hv])]
    exact ⟨rfl, rfl⟩

/-- Taxonomy of `insert`: it raises the out-of-range condition exactly when
the index lies outside `[0, length]`, and never the empty-container
condition. -/
theorem insert_taxonomy (v : Vector E) (i : Int) (e : E) :
    raisesOOR (v.insert i e) = !(decide (0 ≤ i) && decide (i ≤ (v.n : Int))) ∧
    raisesEmpty (v.insert i e) = false := by
  unfold Vector.insert
  by_cases hc : i = (v.n : Int)
  · rw [if_pos (by simp [hc])]
    have hr : (decide (0 ≤ i) && decide (i ≤ (v.n : Int))) = true := by
      simp
      omega
    rw [hr]
    unfold Vector.insert_back
    constructor
    · split <;> rfl
    · split <;> rfl
  · rw [if_neg (by simp [hc])]
    by_cases hv : v.valid i = true
    · rw [if_neg (by simp [hv])]
      have hr : (decide (0 ≤ i) && decide (i ≤ (v.n : Int))) = true := by
        unfold Vector.valid at hv
        simp at hv ⊢
        omega
      rw [hr]
      constructor
      · split <;> rfl
      · split <;> rfl
    · rw [if_pos (by simp [hv])]
      have hr : (decide (0 ≤ i) && decide (i ≤ (v.n : Int))) = false := by
        unfold Vector.valid at hv
        simp at hv ⊢
        omega
      rw [hr]
      exact ⟨rfl, rfl⟩

/-- Taxonomy of `remove`: on an empty vector with index `-1` it delegates to
`remove_back` and raises the empty-container condition (not out-of-range);
in every other case it raises the out-of-range condition exactly when
`valid(i)` fails, and never the empty-container condition. -/
theorem remove_taxonomy (v : Vector E) (i : Int) :
    ((v.n = 0 ∧ i = -1) →
      raisesEmpty (v.remove i) = true ∧ raisesOOR (v.remove i) = false) ∧
    (¬(v.n = 0 ∧ i = -1) →
      raisesOOR (v.remove i) = !(v.valid i) ∧ raisesEmpty (v.remove i) = false) := by
  constructor
  · rintro ⟨h0, rfl⟩
    unfold Vector.remove Vector.remove_back
    rw [if_pos (by simp [h0]), if_pos (by simp [Vector.empty, h0])]
    exact ⟨rfl, rfl⟩
  · intro hne
    unfold Vector.remove
    by_cases hc : i = (v.n : Int) - 1
    · have hn : 0 < v.n := by
        rcases Nat.eq_zero_or_pos v.n with h0 | h0
        · exact absurd ⟨h0, by omega⟩ hne
        · exact h0
      have hv : v.valid i = true := by
        unfold Vector.valid
        simp
        omega
      rw [if_pos (by simp [hc]), hv]
      unfold Vector.remove_back
      rw [if_neg (by simp [Vector.empty]; omega)]
      exact ⟨rfl, rfl⟩
    · rw [if_neg (by simp [hc])]
      cases hv : v.valid i
      · rw [if_pos (by simp [hv])]
        exact ⟨rfl, rfl⟩
      · rw [if_neg (by simp [hv])]
        exact ⟨rfl, rfl⟩

/-- Taxonomy of `remove_back`: it raises the empty-container condition exactly
when the length is 0, and never the out-of-range condition. -/
theorem remove_back_taxonomy (v : Vector E) :
    raisesEmpty v.remove_back = decide (v.size = 0) ∧
    raisesOOR v.remove_back = false := by
  unfold Vector.remove_back Vector.empty Vector.size
  by_cases h0 : v.n = 0
  · rw [if_pos (by simp [h0]), decide_eq_true h0]
    exact ⟨rfl, rfl⟩
  · rw [if_neg (by simp [h0]), decide_eq_false h0]
    exact ⟨rfl, rfl⟩

/-- Taxonomy of `front` and `back`: they raise the empty-container condition
exactly when the length is 0, and never the out-of-range condition. -/
theorem front_back_taxonomy (v : Vector E) :
    raisesEmpty v.front = decide (v.size = 0) ∧ raisesOOR v.front = false ∧
    raisesEmpty v.back = decide (v.size = 0) ∧ raisesOOR v.back = false := by
  unfold Vector.front Vector.back Vector.empty Vector.size
  by_cases h0 : v.n = 0
  · rw [if_pos (by simp [h0]), if_pos (by simp [h0]), decide_eq_true h0]
    exact ⟨rfl, rfl, rfl, rfl⟩
  · rw [if_neg (by simp [h0]), if_neg (by simp [h0]), decide_eq_false h0]
    exact ⟨rfl, rfl, rfl, rfl⟩

/-- C7, counterexample: `removeAt(-1)` on the empty default vector — index
-1 lies outside the valid interval `[0, 0)`, so the claim demands the
out-of-range condition — but the code first compares `i == n - 1`
(`-1 == -1`), delegates to `remove_back`, and raises the empty-container
condition instead. -/
theorem c7_remove_empty_cex :
    raisesOOR ((Vector.new DEFAULT_CAPACITY : Vector Nat).remove (-1)) = false ∧
    raisesEmpty ((Vector.new DEFAULT_CAPACITY : Vector Nat).remove (-1)) = true ∧
    (Vector.new DEFAULT_CAPACITY : Vector Nat).valid (-1) = false :=
  ⟨rfl, rfl, rfl⟩

/-- C7 (amended): the two-kind error taxonomy holds with one exception —
`at` raises out-of-range precisely when the index is outside `[0, length)`;
`insertAt` raises out-of-range precisely when the index is outside
`[0, length]`; `removeAt` raises out-of-range precisely when the index is
outside `[0, length)` except for index `-1 == length - 1` on an empty vector,
where its delegation to `removeBack` raises the empty-container condition;
`front`, `back`, `removeBack` raise empty-container precisely when
`length == 0`; no operation raises the other kind; and any erroring operation
leaves the vector's length, capacity and elements unchanged. -/
theorem c7_error_taxonomy (v : Vector E) (i : Int) (e : E) :
    (raisesOOR (v.at' i) = !(v.valid i) ∧ raisesEmpty (v.at' i) = false) ∧
    (raisesOOR (v.insert i e) = !(decide (0 ≤ i) && decide (i ≤ (v.n : Int))) ∧
      raisesEmpty (v.insert i e) = false) ∧
    ((v.n = 0 ∧ i = -1) →
      raisesEmpty (v.remove i) = true ∧ raisesOOR (v.remove i) = false) ∧
    (¬(v.n = 0 ∧ i = -1) →
      raisesOOR (v.remove i) = !(v.valid i) ∧ raisesEmpty (v.remove i) = false) ∧
    (raisesEmpty v.remove_back = decide (v.size = 0) ∧
      raisesOOR v.remove_back = false) ∧
    (raisesEmpty v.front = decide (v.size = 0) ∧ raisesOOR v.front = false ∧
      raisesEmpty v.back = decide (v.size = 0) ∧ raisesOOR v.back = false) ∧
    (∀ op : Op E, isErr (applyOpE v op) = true → applyOp v op = v) :=
  ⟨at_taxonomy v i, insert_taxonomy v i e, (remove_taxonomy v i).1,
    (remove_taxonomy v i).2, remove_back_taxonomy v, front_back_taxonomy v,
    fun _ h => applyOp_unchanged_on_error h⟩

/-- C7, witness: the amended theorem applied to the concrete vector `[9]`
and index 0, with the implications discharged at that input. -/
theorem c7_error_taxonomy_witness :
    raisesOOR ((⟨1, 10, [9]⟩ : Vector Nat).remove 0) = !((⟨1, 10, [9]⟩ : Vector Nat).valid 0) ∧
    raisesEmpty ((⟨1, 10, [9]⟩ : Vector Nat).remove 0) = false ∧
    raisesEmpty (⟨1, 10, [9]⟩ : Vector Nat).remove_back =
      decide ((⟨1, 10, [9]⟩ : Vector Nat).size = 0) ∧
    applyOp (⟨1, 10, [9]⟩ : Vector Nat) (Op.removeAt 5) = ⟨1, 10, [9]⟩ :=
  ⟨((c7_error_taxonomy ⟨1, 10, [9]⟩ 0 0).2.2.2.1 (by decide)).1,
    ((c7_error_taxonomy ⟨1, 10, [9]⟩ 0 0).2.2.2.1 (by decide)).2,
    (c7_error_taxonomy ⟨1, 10, [9]⟩ 0 0).2.2.2.2.1.1,
    (c7_error_taxonomy ⟨1, 10, [9]⟩ 0 0).2.2.2.2.2.2 (Op.removeAt 5) (by decide)⟩

end CppLib
